import Mathlib

/-!
Verification of the sui-indexer core against its specification.

The definitions below are shallow embeddings of the Rust source:

* `utils/tick_math.rs`  — tick sign conversion (`i32_from_u32`, `u32_neg`, `sign_u32`)
* `utils.rs`            — `lagging_timestamp_ms` (wall clock passed explicitly)
* `indexer/onchain_indexer.rs` — `collect_unique_events`, `process_checkpoint`
* `indexer/registry.rs` and `indexer/dex/cetus.rs` — dispatch registry, `get_event_id`
* `service/db_service/pool.rs` and `lending.rs` — entity upserts
* `indexer/lending/scallop.rs` — lending handlers and the obligation-ownership check

Machine integers are modelled as `Nat`/`Int` with explicit reductions mod `2^32`
where Rust wrapping semantics matter.  Environmental effects (wall clock, RPC
lookups, database write outcomes) are passed as explicit parameters.
-/

namespace SuiIndexer

/-! ## Tick math (`src/mev-lib/src/utils/tick_math.rs`) -/

/-- `2^32`, the modulus of the `u32` type. -/
def U32_MOD : Nat := 4294967296

/-- `2^31`, the first `u32` value whose sign bit (bit 31) is set. -/
def I32_HALF : Nat := 2147483648

/-- `sign_u32`: `(tick >> 31) as u8` — the sign bit of a `u32` tick. -/
def sign_u32 (tick : Nat) : Nat := tick >>> 31

/-- `u32_neg`: `tick ^ 4294967295` — XOR with `0xFFFFFFFF`. -/
def u32_neg (tick : Nat) : Nat := tick ^^^ 4294967295

/-- The Rust `as i32` cast of a `u32` value: reinterpret the bit pattern. -/
def castU32toI32 (n : Nat) : Int :=
  if n % U32_MOD < I32_HALF then ((n % U32_MOD : Nat) : Int)
  else ((n % U32_MOD : Nat) : Int) - (U32_MOD : Int)

/-- Wrapping `i32` negation (Rust release-profile unary minus). -/
def i32_wrap (x : Int) : Int := (x + I32_HALF) % (U32_MOD : Int) - (I32_HALF : Int)

/-- `i32_from_u32`: if the sign bit is clear the value is the cast itself,
otherwise `-(u32_neg(tick - 1) as i32)` (wrapping). -/
def i32_from_u32 (tick : Nat) : Int :=
  if sign_u32 tick = 0 then castU32toI32 tick
  else i32_wrap (-(castU32toI32 (u32_neg (tick - 1))))

/-- The on-chain unsigned form of a signed 32-bit integer: its
2's-complement bit pattern as a `u32`. -/
def u32_from_i32 (i : Int) : Nat := (i % (U32_MOD : Int)).toNat

/-! ## Lag computation (`src/mev-lib/src/utils.rs`) -/

/-- `lagging_timestamp_ms`, with the wall clock `nowMs`
(`get_current_timestamp_ms()`) passed explicitly. -/
def lagging_timestamp_ms (nowMs latestTimestampMs : Nat) : Nat :=
  if latestTimestampMs = 0 then 0
  else if nowMs < latestTimestampMs then 0
  else nowMs - latestTimestampMs

/-! ## Helper lemmas for the tick codec -/

/-- XOR with the all-ones 32-bit mask is complement: for `a < 2^32`,
`a ^^^ 0xFFFFFFFF = 0xFFFFFFFF - a`. -/
theorem xor_mask_eq_sub (a : Nat) (h : a < 4294967296) :
    a ^^^ 4294967295 = 4294967295 - a := by
  have hpow : (2 : Nat) ^ 32 = 4294967296 := by norm_num
  have h32 : a < 2 ^ 32 := by rw [hpow]; exact h
  apply Nat.eq_of_testBit_eq
  intro i
  have h2 : (4294967295 : Nat) - a = 2 ^ 32 - (a + 1) := by rw [hpow]; omega
  have h1 : (4294967295 : Nat) = 2 ^ 32 - 1 := by norm_num
  rw [Nat.testBit_xor, h2, h1, Nat.testBit_two_pow_sub_one,
    Nat.testBit_two_pow_sub_succ h32]
  rcases Nat.lt_or_ge i 32 with hi | hi
  · simp [hi]
  · have ha : a.testBit i = false :=
      Nat.testBit_lt_two_pow
        (lt_of_lt_of_le h32 (Nat.pow_le_pow_right (by norm_num) hi))
    simp [ha, Nat.not_lt.mpr hi]

theorem sign_u32_eq_div (tick : Nat) : sign_u32 tick = tick / 2147483648 := by
  show tick >>> 31 = tick / 2147483648
  rw [Nat.shiftRight_eq_div_pow]

/-- C8: Tick sign round-trip.  For every signed 32-bit integer `i` in
`[-2^31, 2^31 - 1]`, converting `i` to its on-chain unsigned 32-bit form
(the 2's-complement bit pattern) and back through `i32_from_u32` yields `i`:
the codec's tick conversion is the exact 2's-complement mapping over the
full `i32` range. -/
theorem tick_sign_round_trip (i : Int) (hlo : -2147483648 ≤ i) (hhi : i ≤ 2147483647) :
    i32_from_u32 (u32_from_i32 i) = i := by
  have hmodval : (U32_MOD : Int) = 4294967296 := by unfold U32_MOD; norm_num
  have hu : u32_from_i32 i = (i % (U32_MOD : Int)).toNat := rfl
  set u : Nat := (i % (U32_MOD : Int)).toNat with hudef
  have huv : (u : Int) = i % (4294967296 : Int) := by rw [hudef, hmodval]; omega
  have hub : u < 4294967296 := by omega
  rw [hu]
  unfold i32_from_u32
  by_cases hsign : sign_u32 u = 0
  · -- sign bit clear: `i` is nonnegative and the cast is the identity
    rw [if_pos hsign]
    rw [sign_u32_eq_div] at hsign
    have hult : u < 2147483648 := by omega
    unfold castU32toI32 U32_MOD I32_HALF
    rw [Nat.mod_eq_of_lt hub, if_pos hult]
    omega
  · -- sign bit set: `i` is negative, XOR-complement plus wrapping negation
    rw [if_neg hsign]
    rw [sign_u32_eq_div] at hsign
    have hule : 2147483648 ≤ u := by omega
    have hneg1 : u32_neg (u - 1) = 4294967296 - u := by
      unfold u32_neg
      rw [xor_mask_eq_sub (u - 1) (by omega)]
      omega
    rw [hneg1]
    unfold castU32toI32 i32_wrap U32_MOD I32_HALF
    rw [Nat.mod_eq_of_lt (by omega : 4294967296 - u < 4294967296)]
    rcases lt_or_ge (4294967296 - u) 2147483648 with hcase | hcase
    · rw [if_pos hcase]
      omega
    · rw [if_neg (by omega)]
      omega

/-- Witness for C8 at concrete inputs, including the sign-bit boundary. -/
theorem tick_sign_round_trip_witness :
    i32_from_u32 (u32_from_i32 (-443636)) = -443636 ∧
      i32_from_u32 (u32_from_i32 443636) = 443636 := by
  constructor
  · exact tick_sign_round_trip (-443636) (by decide) (by decide)
  · exact tick_sign_round_trip 443636 (by decide) (by decide)

/-- C10: `lagging_timestamp_ms` is total and never underflows: it returns `0`
when the checkpoint timestamp is `0` or when the wall clock is earlier than
the timestamp, and `now - t` otherwise; in the subtraction branch the result
plus the timestamp reconstitutes the wall clock exactly. -/
theorem lagging_timestamp_ms_spec (nowMs t : Nat) :
    (t = 0 ∨ nowMs < t → lagging_timestamp_ms nowMs t = 0) ∧
      (t ≠ 0 → t ≤ nowMs →
        lagging_timestamp_ms nowMs t = nowMs - t ∧
          lagging_timestamp_ms nowMs t + t = nowMs) ∧
      0 ≤ lagging_timestamp_ms nowMs t := by
  unfold lagging_timestamp_ms
  refine ⟨?_, ?_, Nat.zero_le _⟩
  · rintro (h | h) <;> simp [h]
  · intro h1 h2
    rw [if_neg h1, if_neg (by omega)]
    omega

/-- Witness for C10 on concrete inputs covering all three branches. -/
theorem lagging_timestamp_ms_spec_witness :
    lagging_timestamp_ms 1000 0 = 0 ∧
      lagging_timestamp_ms 1000 700 = 300 ∧ lagging_timestamp_ms 1000 700 + 700 = 1000 := by
  refine ⟨(lagging_timestamp_ms_spec 1000 0).1 (Or.inl rfl), ?_, ?_⟩
  · exact ((lagging_timestamp_ms_spec 1000 700).2.1 (by decide) (by decide)).1
  · exact ((lagging_timestamp_ms_spec 1000 700).2.1 (by decide) (by decide)).2

/-! ## Checkpoint data model (`sui_types::full_checkpoint_content::CheckpointData`) -/

/-- An emitted Move event: fully qualified type string, sender address,
opaque BCS contents. -/
structure Event where
  typeStr : String
  sender : String
  contents : List Nat
deriving DecidableEq

/-- A checkpoint transaction: its digest (rendered as a string by
`tx.effects.transaction_digest().to_string()`) and its optional event list
(`tx.events` is an `Option`). -/
structure Transaction where
  txDigest : String
  events : Option (List Event)
deriving DecidableEq

/-- A checkpoint: sequence number, timestamp, ordered transactions. -/
structure CheckpointData where
  sequenceNumber : Nat
  timestampMs : Nat
  transactions : List Transaction
deriving DecidableEq

/-! ## Intra-checkpoint dedup (`OnchainIndexer::collect_unique_events`) -/

/-- The dedup map `HashMap<String, (Event, String)>`, modelled as an
association list with unique keys. -/
abbrev EventMap := List (String × (Event × String))

/-- `HashMap::insert`: replace the entry for an existing key, else add one. -/
def mapInsert (k : String) (v : Event × String) : EventMap → EventMap
  | [] => [(k, v)]
  | p :: rest => if p.1 = k then (k, v) :: rest else p :: mapInsert k v rest

/-- Lookup in the dedup map. -/
def mapLookup (k : String) : EventMap → Option (Event × String)
  | [] => none
  | p :: rest => if p.1 = k then some p.2 else mapLookup k rest

/-- The `(event, tx_digest)` pairs contributed by one transaction, in event
order; a transaction without an event list contributes nothing (`continue`). -/
def txPairs (tx : Transaction) : List (Event × String) :=
  match tx.events with
  | none => []
  | some evs => evs.map (fun e => (e, tx.txDigest))

/-- The deterministic iteration of a checkpoint: transactions in their given
order, events within each transaction in their given order. -/
def checkpointPairs : List Transaction → List (Event × String)
  | [] => []
  | tx :: rest => txPairs tx ++ checkpointPairs rest

/-- One step of the dedup loop: if the registry yields an event identity,
insert the pair (overwriting any prior entry for that identity); otherwise
skip the event. -/
def insertPair (gid : Event → Option String) (m : EventMap) (p : Event × String) : EventMap :=
  match gid p.1 with
  | some k => mapInsert k p m
  | none => m

/-- `collect_unique_events`: fold the dedup loop over the checkpoint
iteration, starting from the empty map. -/
def collect_unique_events (gid : Event → Option String) (C : CheckpointData) : EventMap :=
  (checkpointPairs C.transactions).foldl (insertPair gid) []

/-- `event_map.into_values()`: the pairs handed to the dispatch phase. -/
def uniqueEvents (gid : Event → Option String) (C : CheckpointData) : List (Event × String) :=
  (collect_unique_events gid C).map (·.2)

/-- The last `(event, tx_digest)` pair with identity `I` in a pair list,
folded in iteration order (later occurrences overwrite earlier ones). -/
def lastOccAux (gid : Event → Option String) (I : String)
    (l : List (Event × String)) (acc : Option (Event × String)) : Option (Event × String) :=
  l.foldl (fun a p => if gid p.1 = some I then some p else a) acc

/-- The last occurrence of identity `I` in the deterministic iteration of a
checkpoint. -/
def lastOccurrence (gid : Event → Option String) (I : String) (C : CheckpointData) :
    Option (Event × String) :=
  lastOccAux gid I (checkpointPairs C.transactions) none

/-! ### Dedup map lemmas -/

theorem mapLookup_mapInsert (I k : String) (v : Event × String) (m : EventMap) :
    mapLookup I (mapInsert k v m) = if k = I then some v else mapLookup I m := by
  induction m with
  | nil => by_cases h : k = I <;> simp [mapInsert, mapLookup, h]
  | cons p rest ih =>
    by_cases hp : p.1 = k
    · by_cases h : k = I <;> simp [mapInsert, mapLookup, hp, h]
    · by_cases h : p.1 = I
      · have hk : ¬ k = I := fun hk => hp (hk ▸ h)
        have hk' : ¬ I = k := fun hIk => hk hIk.symm
        simp [mapInsert, mapLookup, hp, h, hk, hk']
      · simp [mapInsert, mapLookup, hp, h, ih]

theorem mem_mapInsert (k : String) (v : Event × String) (kv' : String × (Event × String))
    (m : EventMap) :
    kv' ∈ mapInsert k v m → kv' = (k, v) ∨ kv' ∈ m := by
  induction m with
  | nil => simp [mapInsert]
  | cons p rest ih =>
    by_cases hp : p.1 = k
    · simp only [mapInsert, if_pos hp, List.mem_cons]
      tauto
    · simp only [mapInsert, if_neg hp, List.mem_cons]
      rintro (h | h)
      · tauto
      · rcases ih h with h' | h' <;> tauto

/-- Keys of a dedup map. -/
def mapKeys (m : EventMap) : List String := m.map (·.1)

theorem mem_mapKeys_mapInsert (x k : String) (v : Event × String) (m : EventMap) :
    x ∈ mapKeys (mapInsert k v m) → x = k ∨ x ∈ mapKeys m := by
  induction m with
  | nil => simp [mapInsert, mapKeys]
  | cons p rest ih =>
    by_cases hp : p.1 = k
    · simp only [mapInsert, if_pos hp, mapKeys, List.map_cons, List.mem_cons]
      tauto
    · simp only [mapInsert, if_neg hp, mapKeys, List.map_cons, List.mem_cons]
      rintro (h | h)
      · tauto
      · rcases ih h with h' | h' <;> tauto

theorem nodup_mapKeys_mapInsert (k : String) (v : Event × String) (m : EventMap)
    (hm : (mapKeys m).Nodup) : (mapKeys (mapInsert k v m)).Nodup := by
  induction m with
  | nil => simp [mapInsert, mapKeys]
  | cons p rest ih =>
    simp only [mapKeys, List.map_cons, List.nodup_cons] at hm
    by_cases hp : p.1 = k
    · simp only [mapInsert, if_pos hp, mapKeys, List.map_cons, List.nodup_cons]
      exact ⟨hp ▸ hm.1, hm.2⟩
    · simp only [mapInsert, if_neg hp, mapKeys, List.map_cons, List.nodup_cons]
      refine ⟨fun hmem => ?_, ih hm.2⟩
      rcases mem_mapKeys_mapInsert _ _ _ _ hmem with h | h
      · exact hp h
      · exact hm.1 h

theorem mapLookup_of_mem (k : String) (v : Event × String) (m : EventMap)
    (hnd : (mapKeys m).Nodup) (hmem : (k, v) ∈ m) : mapLookup k m = some v := by
  induction m with
  | nil => cases hmem
  | cons q rest ih =>
    simp only [mapKeys, List.map_cons, List.nodup_cons] at hnd
    rcases List.mem_cons.mp hmem with h | h
    · simp [mapLookup, ← h]
    · have hq : ¬ q.1 = k := by
        intro hqk
        exact hnd.1 (hqk ▸ List.mem_map_of_mem (·.1) h)
      simp only [mapLookup, if_neg hq]
      exact ih hnd.2 h

/-- Key consistency: every entry of the dedup map stores a pair whose event
has exactly the key as identity. -/
theorem foldl_insertPair_consistent (gid : Event → Option String)
    (l : List (Event × String)) (m : EventMap)
    (hm : ∀ kv ∈ m, gid kv.2.1 = some kv.1) :
    ∀ kv ∈ l.foldl (insertPair gid) m, gid kv.2.1 = some kv.1 := by
  induction l generalizing m with
  | nil => exact hm
  | cons p l ih =>
    intro kv hkv
    refine ih (insertPair gid m p) ?_ kv hkv
    intro kv' hkv'
    unfold insertPair at hkv'
    cases hg : gid p.1 with
    | none => exact hm kv' (by rwa [hg] at hkv')
    | some k =>
      rw [hg] at hkv'
      rcases mem_mapInsert k p kv' m hkv' with h | h
      · rw [h]; exact hg
      · exact hm kv' h

/-- The dedup map never holds two entries with the same key. -/
theorem foldl_insertPair_nodup (gid : Event → Option String)
    (l : List (Event × String)) (m : EventMap) (hm : (mapKeys m).Nodup) :
    (mapKeys (l.foldl (insertPair gid) m)).Nodup := by
  induction l generalizing m with
  | nil => exact hm
  | cons p l ih =>
    refine ih (insertPair gid m p) ?_
    unfold insertPair
    cases hg : gid p.1 with
    | none => exact hm
    | some k => exact nodup_mapKeys_mapInsert k p m hm

/-- Lookup after the dedup fold returns the latest occurrence of the key in
iteration order (falling back to the initial map). -/
theorem mapLookup_foldl_insertPair (gid : Event → Option String) (I : String)
    (l : List (Event × String)) (m : EventMap) :
    mapLookup I (l.foldl (insertPair gid) m) = lastOccAux gid I l (mapLookup I m) := by
  induction l generalizing m with
  | nil => rfl
  | cons p l ih =>
    show mapLookup I (l.foldl (insertPair gid) (insertPair gid m p))
        = lastOccAux gid I l (if gid p.1 = some I then some p else mapLookup I m)
    rw [ih]
    congr 1
    unfold insertPair
    cases hg : gid p.1 with
    | none => simp
    | some k =>
      rw [mapLookup_mapInsert]
      by_cases hk : k = I <;> simp [hk]

/-- With key consistency and unique keys, at most one dispatched pair can
carry any given identity. -/
theorem filter_values_le_one (gid : Event → Option String) (I : String) (m : EventMap)
    (hc : ∀ kv ∈ m, gid kv.2.1 = some kv.1) (hnd : (mapKeys m).Nodup) :
    ((m.map (·.2)).filter (fun p => gid p.1 = some I)).length ≤ 1 := by
  induction m with
  | nil => simp
  | cons q rest ih =>
    simp only [mapKeys, List.map_cons, List.nodup_cons] at hnd
    simp only [List.map_cons, List.filter]
    cases hq : decide (gid q.2.1 = some I) with
    | false =>
      exact ih (fun kv hkv => hc kv (List.mem_cons_of_mem _ hkv)) hnd.2
    | true =>
      have hqI : gid q.2.1 = some I := of_decide_eq_true hq
      have hkey : q.1 = I := by
        have h0 := hc q (List.mem_cons_self _ _)
        rw [h0] at hqI
        injection hqI
      have hrest : (rest.map (·.2)).filter (fun p => gid p.1 = some I) = [] := by
        rw [List.filter_eq_nil_iff]
        intro p hp
        rcases List.mem_map.mp hp with ⟨kv, hkv, hkvp⟩
        have hckv := hc kv (List.mem_cons_of_mem _ hkv)
        intro hdec
        have hpI : gid p.1 = some I := of_decide_eq_true hdec
        rw [← hkvp] at hpI
        rw [hckv] at hpI
        have : kv.1 = I := by injection hpI
        exact hnd.1 (hkey ▸ this ▸ List.mem_map_of_mem (·.1) hkv)
      simp [hrest]

/-- C1: For every checkpoint `C` and every handler-recognized identity `I`,
the dispatch phase receives at most one `(event, tx_digest)` pair whose
identity is `I`, and any such pair is exactly the last occurrence of `I` in
the deterministic iteration of `C` (transaction order, then event order). -/
theorem dedup_at_most_once_latest_wins (gid : Event → Option String)
    (C : CheckpointData) (I : String) :
    ((uniqueEvents gid C).filter (fun p => gid p.1 = some I)).length ≤ 1 ∧
      ∀ p ∈ uniqueEvents gid C, gid p.1 = some I → lastOccurrence gid I C = some p := by
  have hc := foldl_insertPair_consistent gid (checkpointPairs C.transactions) []
    (by intro kv hkv; cases hkv)
  have hnd := foldl_insertPair_nodup gid (checkpointPairs C.transactions) [] (by simp [mapKeys])
  constructor
  · exact filter_values_le_one gid I _ hc hnd
  · intro p hp hpI
    rcases List.mem_map.mp hp with ⟨kv, hkv, hkvp⟩
    have hckv := hc kv hkv
    have hkI : kv.1 = I := by
      rw [hkvp] at hckv
      rw [hckv] at hpI
      injection hpI
    have hlook : mapLookup I (collect_unique_events gid C) = some p := by
      have : (I, p) ∈ collect_unique_events gid C := by
        have : kv = (I, p) := by
          rcases kv with ⟨k', v'⟩
          simp only at hkI hkvp
          rw [hkI, hkvp]
        rwa [this] at hkv
      exact mapLookup_of_mem I p _ hnd this
    have hfold := mapLookup_foldl_insertPair gid I (checkpointPairs C.transactions) []
    have hnone : mapLookup I ([] : EventMap) = none := rfl
    rw [hnone] at hfold
    unfold collect_unique_events at hlook
    unfold lastOccurrence
    rw [← hfold]
    exact hlook

/-- A sample identity function for the C1 witness: all swap events of one
pool share one identity. -/
def gidSample : Event → Option String :=
  fun e => if e.typeStr = "pkg::pool::SwapEvent" then some "cetus_pool1" else none

/-- A sample checkpoint for the C1 witness: three transactions, each with a
swap event of the same identity. -/
def cpSample : CheckpointData :=
  ⟨5, 0, [⟨"tx1", some [⟨"pkg::pool::SwapEvent", "alice", [1]⟩]⟩,
          ⟨"tx2", some [⟨"pkg::pool::SwapEvent", "bob", [2]⟩]⟩,
          ⟨"tx3", some [⟨"pkg::pool::SwapEvent", "carol", [3]⟩]⟩]⟩

/-- Witness for C1: a three-transaction checkpoint whose three events share
one identity; the dispatched pair is the third transaction's. -/
theorem dedup_at_most_once_latest_wins_witness :
    (((uniqueEvents gidSample cpSample).filter
        (fun p => gidSample p.1 = some "cetus_pool1")).length ≤ 1) ∧
      lastOccurrence gidSample "cetus_pool1" cpSample
        = some (⟨"pkg::pool::SwapEvent", "carol", [3]⟩, "tx3") := by
  constructor
  · exact (dedup_at_most_once_latest_wins gidSample cpSample "cetus_pool1").1
  · exact (dedup_at_most_once_latest_wins gidSample cpSample "cetus_pool1").2
      (⟨"pkg::pool::SwapEvent", "carol", [3]⟩, "tx3") (by decide) (by decide)

/-! ## The Cetus handler and its registry slots
(`src/mev-lib/src/constant.rs`, `indexer/registry.rs`, `indexer/dex/cetus.rs`) -/

def CETUS_SWAP_EVENT : String :=
  "0x1eabed72c53feb3805120a081dc15963c204dc8d091542592abaf7a35689b2fb::pool::SwapEvent"

def CETUS_ADD_LIQUIDITY_EVENT : String :=
  "0x1eabed72c53feb3805120a081dc15963c204dc8d091542592abaf7a35689b2fb::pool::AddLiquidityEvent"

def CETUS_REMOVE_LIQUIDITY_EVENT : String :=
  "0x1eabed72c53feb3805120a081dc15963c204dc8d091542592abaf7a35689b2fb::pool::RemoveLiquidityEvent"

def CETUS_EXCHANGE : String := "cetus"

/-- The event types the registry maps to the Cetus processor when
`arbitrage_enabled` is set (`EventProcessorRegistry::new`). -/
def cetusRegisteredEventTypes : List String :=
  [CETUS_SWAP_EVENT, CETUS_ADD_LIQUIDITY_EVENT, CETUS_REMOVE_LIQUIDITY_EVENT]

/-- `Cetus::get_event_id`: only the swap arm exists; every other event type
falls into the catch-all `Err(anyhow!("Unknown event type"))`.  The BCS
decode of `SwapEvent` (`extract_pool_id_from_event`) is abstracted as
`decodeSwapPool`; a `none` result models a decode failure. -/
def cetusGetEventId (decodeSwapPool : List Nat → Option String)
    (eventType : String) (e : Event) : Option String :=
  if eventType = CETUS_SWAP_EVENT then
    match decodeSwapPool e.contents with
    | some poolId => some (CETUS_EXCHANGE ++ "_" ++ eventType ++ "_" ++ poolId)
    | none => none
  else none

/-- `EventProcessorRegistry::get_event_id` restricted to the Cetus slots:
look the event type up among the registered types (dex partition, arbitrage
enabled), then delegate to the processor's `get_event_id`. -/
def cetusRegistryGetEventId (decodeSwapPool : List Nat → Option String) (e : Event) :
    Option String :=
  if e.typeStr ∈ cetusRegisteredEventTypes then cetusGetEventId decodeSwapPool e.typeStr e
  else none

/-- A checkpoint holding one Cetus add-liquidity and one remove-liquidity
event (the C2 failing input). -/
def cetusLiqCheckpoint : CheckpointData :=
  ⟨42, 0, [⟨"txA", some [⟨CETUS_ADD_LIQUIDITY_EVENT, "alice", [7]⟩]⟩,
           ⟨"txB", some [⟨CETUS_REMOVE_LIQUIDITY_EVENT, "bob", [8]⟩]⟩]⟩

/-- C2 is violated by the code: the Cetus add-liquidity and remove-liquidity
event types are registered in the dispatch registry, yet `Cetus::get_event_id`
returns an error for them regardless of the decode (for every decoder,
including ones that always succeed), so `collect_unique_events` drops both
events and nothing reaches dispatch. -/
theorem cetus_liquidity_events_dropped :
    CETUS_ADD_LIQUIDITY_EVENT ∈ cetusRegisteredEventTypes ∧
      CETUS_REMOVE_LIQUIDITY_EVENT ∈ cetusRegisteredEventTypes ∧
      (∀ decodeSwapPool e,
        cetusGetEventId decodeSwapPool CETUS_ADD_LIQUIDITY_EVENT e = none) ∧
      (∀ decodeSwapPool e,
        cetusGetEventId decodeSwapPool CETUS_REMOVE_LIQUIDITY_EVENT e = none) ∧
      (∀ decodeSwapPool,
        collect_unique_events (cetusRegistryGetEventId decodeSwapPool) cetusLiqCheckpoint = []) := by
  have hskip : ∀ d (e : Event), ¬ e.typeStr = CETUS_SWAP_EVENT →
      cetusRegistryGetEventId d e = none := by
    intro d e h
    unfold cetusRegistryGetEventId cetusGetEventId
    by_cases hm : e.typeStr ∈ cetusRegisteredEventTypes
    · rw [if_pos hm, if_neg h]
    · rw [if_neg hm]
  have hfold : ∀ (gid : Event → Option String) (l : List (Event × String)) (m : EventMap),
      (∀ p ∈ l, gid p.1 = none) → l.foldl (insertPair gid) m = m := by
    intro gid l
    induction l with
    | nil => intro m _; rfl
    | cons p l ih =>
      intro m h
      show (l.foldl (insertPair gid) (insertPair gid m p)) = m
      have hp : insertPair gid m p = m := by
        unfold insertPair
        rw [h p (List.mem_cons_self _ _)]
      rw [hp]
      exact ih m (fun q hq => h q (List.mem_cons_of_mem _ hq))
  refine ⟨by decide, by decide, ?_, ?_, ?_⟩
  · intro d e
    unfold cetusGetEventId
    rw [if_neg (by decide)]
  · intro d e
    unfold cetusGetEventId
    rw [if_neg (by decide)]
  · intro d
    unfold collect_unique_events
    apply hfold
    intro p hp
    apply hskip
    have : checkpointPairs cetusLiqCheckpoint.transactions
        = [(⟨CETUS_ADD_LIQUIDITY_EVENT, "alice", [7]⟩, "txA"),
           (⟨CETUS_REMOVE_LIQUIDITY_EVENT, "bob", [8]⟩, "txB")] := by decide
    rw [this] at hp
    rcases List.mem_cons.mp hp with h | h
    · rw [h]; decide
    · rcases List.mem_cons.mp h with h' | h'
      · rw [h']; decide
      · cases h'

/-! ## The checkpoint worker (`OnchainIndexer::process_checkpoint`) -/

/-- Error kinds surfaced by handlers and the database layer. -/
inductive PError where
  | databaseError
  | rpcError
  | invalidPayload
  | unknownEventType
  | ownershipMismatch
deriving DecidableEq

/-- The configuration fields `process_checkpoint` reads. -/
structure IndexerConfig where
  devMode : Bool
  startCheckpointNumber : Nat
  indexerLaggingMsThreshold : Nat
deriving DecidableEq

/-- The indexer's atomic counters (`OnchainIndexer` fields). -/
structure IndexerState where
  latestSeqNumber : Nat
  latestTimestampMs : Nat
  totalCheckpoints : Nat
  totalProcessedCheckpoints : Nat
  maxProcessingTime : Nat
  minProcessingTime : Nat
  totalProcessingTime : Nat
  maxLagging : Nat
  minLagging : Nat
  totalLagging : Nat
  nextAlertTimestamp : Nat
  alertBackoffFactor : Nat
deriving DecidableEq

/-- The lag-alert block of `process_checkpoint`, acting on the pair
`(next_alert_timestamp, alert_backoff_factor)`.  On a triggered alert the
*pre-increment* backoff factor is capped at 8 and the next alert is
scheduled `(1 << capped) * 900` seconds ahead; within-threshold lag resets
the factor. -/
def alertStep (threshold lag nowSecs : Nat) (st : Nat × Nat) : Nat × Nat :=
  if threshold < lag then
    if st.1 < nowSecs then
      let pre := st.2
      let capped := min pre 8
      (nowSecs + 2 ^ capped * 900, pre + 1)
    else st
  else (st.1, 0)

/-- The body of a non-gated `process_checkpoint` run up to (and excluding)
the periodic metrics snapshot: dedup + dispatch, processing-time metrics
(only when some event was recognized), lag metrics, watermark advance, and
the lag-alert schedule. -/
def checkpointStep (cfg : IndexerConfig) (gid : Event → Option String)
    (handler : Event × String → Except PError Unit)
    (nowMs nowSecs processingTime : Nat)
    (st : IndexerState) (C : CheckpointData) : IndexerState :=
  let seq := C.sequenceNumber
  let chkTs := C.timestampMs
  let unique := uniqueEvents gid C
  let st1 :=
    if unique.isEmpty then st
    else
      -- dispatch with bounded concurrency; failures are dropped by
      -- `.filter_map(|result| result.ok())` and only logged
      let _results := (unique.map handler).filterMap (fun r => r.toOption)
      -- processing-time metrics, updated only on this branch
      { st with
        maxProcessingTime :=
          if st.maxProcessingTime < processingTime then processingTime
          else st.maxProcessingTime
        minProcessingTime :=
          if processingTime < st.minProcessingTime then processingTime
          else st.minProcessingTime
        totalProcessingTime := st.totalProcessingTime + processingTime
        totalProcessedCheckpoints := st.totalProcessedCheckpoints + 1 }
  -- lagging metrics, updated for every non-gated checkpoint
  let lag := lagging_timestamp_ms nowMs chkTs
  let st2 :=
    { st1 with
      maxLagging := if st1.maxLagging < lag then lag else st1.maxLagging
      minLagging := if lag < st1.minLagging then lag else st1.minLagging
      totalLagging := st1.totalLagging + lag
      totalCheckpoints := st1.totalCheckpoints + 1 }
  -- watermark: advance only on strict increase
  let st3 :=
    { st2 with
      latestSeqNumber := if st2.latestSeqNumber < seq then seq else st2.latestSeqNumber
      latestTimestampMs := if st2.latestTimestampMs < chkTs then chkTs
        else st2.latestTimestampMs }
  -- lag alert with exponential backoff
  let a := alertStep cfg.indexerLaggingMsThreshold lag nowSecs
    (st3.nextAlertTimestamp, st3.alertBackoffFactor)
  { st3 with nextAlertTimestamp := a.1, alertBackoffFactor := a.2 }

/-- `OnchainIndexer::process_checkpoint`, with the environment passed
explicitly: `gid` is the registry's `get_event_id`; `handler` is
`process_event` (its per-event result); `saveMetric` is the outcome of the
every-1000th-checkpoint `save_metric_to_db` write; `nowMs`/`nowSecs` are the
wall clock; `processingTime` the measured elapsed time. -/
def process_checkpoint (cfg : IndexerConfig) (gid : Event → Option String)
    (handler : Event × String → Except PError Unit)
    (saveMetric : Except PError Unit)
    (nowMs nowSecs processingTime : Nat)
    (st : IndexerState) (C : CheckpointData) : Except PError IndexerState :=
  -- dev-mode gate: scan only one checkpoint
  if cfg.devMode ∧ cfg.startCheckpointNumber + 1 < C.sequenceNumber then .ok st
  else
    let st4 := checkpointStep cfg gid handler nowMs nowSecs processingTime st C
    -- periodic metrics snapshot; its database failure propagates with `?`
    if C.sequenceNumber % 1000 = 0 then
      match saveMetric with
      | .error e => .error e
      | .ok _ => .ok st4
    else .ok st4

/-- A successful non-dev-mode `process_checkpoint` run returns exactly the
`checkpointStep` state: the metric snapshot can only fail the run, not alter
the state. -/
theorem process_checkpoint_ok_state (cfg : IndexerConfig) (gid : Event → Option String)
    (handler : Event × String → Except PError Unit) (sm : Except PError Unit)
    (nowMs nowSecs pt : Nat) (st : IndexerState) (C : CheckpointData) (st' : IndexerState)
    (hdev : cfg.devMode = false)
    (hok : process_checkpoint cfg gid handler sm nowMs nowSecs pt st C = .ok st') :
    st' = checkpointStep cfg gid handler nowMs nowSecs pt st C := by
  simp only [process_checkpoint] at hok
  rw [if_neg (by simp [hdev])] at hok
  by_cases hmod : C.sequenceNumber % 1000 = 0 <;>
    simp only [hmod, if_true, if_false] at hok
  · cases sm with
    | error e => cases hok
    | ok u => injection hok with h; exact h.symm
  · injection hok with h; exact h.symm

/-- When the metric snapshot is not due (or succeeds), a non-dev-mode
`process_checkpoint` run always succeeds, whatever the handlers returned. -/
theorem process_checkpoint_ok_of_not_snapshot (cfg : IndexerConfig)
    (gid : Event → Option String) (handler : Event × String → Except PError Unit)
    (sm : Except PError Unit) (nowMs nowSecs pt : Nat) (st : IndexerState)
    (C : CheckpointData) (hdev : cfg.devMode = false)
    (hmod : C.sequenceNumber % 1000 ≠ 0) :
    process_checkpoint cfg gid handler sm nowMs nowSecs pt st C
      = .ok (checkpointStep cfg gid handler nowMs nowSecs pt st C) := by
  simp only [process_checkpoint]
  rw [if_neg (by simp [hdev]), if_neg hmod]

theorem checkpointStep_latest (cfg : IndexerConfig) (gid : Event → Option String)
    (handler : Event × String → Except PError Unit) (nowMs nowSecs pt : Nat)
    (st : IndexerState) (C : CheckpointData) :
    (checkpointStep cfg gid handler nowMs nowSecs pt st C).latestSeqNumber
        = max st.latestSeqNumber C.sequenceNumber ∧
      (checkpointStep cfg gid handler nowMs nowSecs pt st C).latestTimestampMs
        = max st.latestTimestampMs C.timestampMs := by
  by_cases hempty : (uniqueEvents gid C).isEmpty
  · simp only [checkpointStep, hempty, if_true] <;>
      (repeat' apply And.intro) <;>
      first
        | trivial
        | (split <;> omega)
  · simp only [checkpointStep, hempty, Bool.false_eq_true, if_false] <;>
      (repeat' apply And.intro) <;>
      first
        | trivial
        | (split <;> omega)

theorem checkpointStep_lag_counters (cfg : IndexerConfig) (gid : Event → Option String)
    (handler : Event × String → Except PError Unit) (nowMs nowSecs pt : Nat)
    (st : IndexerState) (C : CheckpointData) :
    (checkpointStep cfg gid handler nowMs nowSecs pt st C).totalCheckpoints
        = st.totalCheckpoints + 1 ∧
      (checkpointStep cfg gid handler nowMs nowSecs pt st C).totalLagging
        = st.totalLagging + lagging_timestamp_ms nowMs C.timestampMs := by
  by_cases hempty : (uniqueEvents gid C).isEmpty
  · simp only [checkpointStep, hempty, if_true] <;>
      (repeat' apply And.intro) <;>
      first
        | trivial
        | (split <;> omega)
  · simp only [checkpointStep, hempty, Bool.false_eq_true, if_false] <;>
      (repeat' apply And.intro) <;>
      first
        | trivial
        | (split <;> omega)

theorem checkpointStep_empty_counters (cfg : IndexerConfig) (gid : Event → Option String)
    (handler : Event × String → Except PError Unit) (nowMs nowSecs pt : Nat)
    (st : IndexerState) (C : CheckpointData)
    (hempty : (uniqueEvents gid C).isEmpty = true) :
    (checkpointStep cfg gid handler nowMs nowSecs pt st C).totalProcessedCheckpoints
        = st.totalProcessedCheckpoints ∧
      (checkpointStep cfg gid handler nowMs nowSecs pt st C).totalProcessingTime
        = st.totalProcessingTime ∧
      (checkpointStep cfg gid handler nowMs nowSecs pt st C).maxProcessingTime
        = st.maxProcessingTime ∧
      (checkpointStep cfg gid handler nowMs nowSecs pt st C).minProcessingTime
        = st.minProcessingTime := by
  simp only [checkpointStep, hempty, if_true] <;>
    (repeat' apply And.intro) <;>
    first
      | trivial
      | (split <;> omega)

theorem checkpointStep_nonempty_counters (cfg : IndexerConfig) (gid : Event → Option String)
    (handler : Event × String → Except PError Unit) (nowMs nowSecs pt : Nat)
    (st : IndexerState) (C : CheckpointData)
    (hempty : (uniqueEvents gid C).isEmpty = false) :
    (checkpointStep cfg gid handler nowMs nowSecs pt st C).totalProcessedCheckpoints
        = st.totalProcessedCheckpoints + 1 ∧
      (checkpointStep cfg gid handler nowMs nowSecs pt st C).totalProcessingTime
        = st.totalProcessingTime + pt ∧
      (checkpointStep cfg gid handler nowMs nowSecs pt st C).maxProcessingTime
        = max st.maxProcessingTime pt ∧
      (checkpointStep cfg gid handler nowMs nowSecs pt st C).minProcessingTime
        = min st.minProcessingTime pt := by
  simp only [checkpointStep, hempty, Bool.false_eq_true, if_false] <;>
    (repeat' apply And.intro) <;>
    first
      | trivial
      | (split <;> omega)

/-! ## Fixtures shared by the checkpoint-worker claims -/

/-- A non-dev-mode configuration. -/
def cfgFix : IndexerConfig := ⟨false, 0, 1000000⟩

/-- A fresh indexer state (as built by `OnchainIndexer::new` with no
persisted metric row: min counters start at `u64::MAX`). -/
def stFix : IndexerState :=
  ⟨0, 0, 0, 0, 0, 18446744073709551615, 0, 0, 18446744073709551615, 0, 0, 0⟩

/-- C3 as stated is violated by the code: every handler of `cpSample`'s
events fails with a database error, yet `process_checkpoint` returns `Ok`
and the watermark advances to the checkpoint's sequence number — dispatch
failures are dropped by `.filter_map(|r| r.ok())`. -/
theorem db_error_absorbed_counterexample :
    (process_checkpoint cfgFix gidSample (fun _ => .error .databaseError) (.ok ())
          2000 3 10 stFix cpSample).toOption.map (·.latestSeqNumber) = some 5 := by
  decide

/-- C3 amended: handler failures during dispatch — database errors
included — are absorbed: the events are skipped, `process_checkpoint`
returns `Ok`, and the watermark still advances (here stated away from the
every-1000th metric snapshot, the only write whose failure aborts the
checkpoint). -/
theorem db_error_absorbed (cfg : IndexerConfig) (gid : Event → Option String)
    (handler : Event × String → Except PError Unit) (sm : Except PError Unit)
    (nowMs nowSecs pt : Nat) (st : IndexerState) (C : CheckpointData)
    (hdev : cfg.devMode = false) (hmod : C.sequenceNumber % 1000 ≠ 0) :
    (process_checkpoint cfg gid handler sm nowMs nowSecs pt st C).toOption.map
        (·.latestSeqNumber)
      = some (max st.latestSeqNumber C.sequenceNumber) := by
  rw [process_checkpoint_ok_of_not_snapshot cfg gid handler sm nowMs nowSecs pt st C hdev hmod]
  have hl := (checkpointStep_latest cfg gid handler nowMs nowSecs pt st C).1
  simp [Except.toOption, hl]

/-- Witness for the amended C3: a handler that always fails with a database
error, and even a failing metric write, still give `Ok` with the advanced
watermark. -/
theorem db_error_absorbed_witness :
    (process_checkpoint cfgFix gidSample (fun _ => .error .databaseError)
          (.error .databaseError) 2000 3 10 stFix cpSample).toOption.map (·.latestSeqNumber)
      = some (max stFix.latestSeqNumber cpSample.sequenceNumber) :=
  db_error_absorbed cfgFix gidSample (fun _ => .error .databaseError)
    (.error .databaseError) 2000 3 10 stFix cpSample rfl (by decide)

/-- C4: Watermark monotonicity.  `latest_seq_number` (and
`latest_timestamp_ms`) advance only on strict increase, so after two
successfully processed checkpoints the watermark dominates both sequence
numbers. -/
theorem watermark_monotonic (cfg : IndexerConfig)
    (gidA gidB : Event → Option String)
    (hA hB : Event × String → Except PError Unit) (smA smB : Except PError Unit)
    (nmA nsA ptA nmB nsB ptB : Nat) (st stA stB : IndexerState)
    (Ca Cb : CheckpointData) (hdev : cfg.devMode = false)
    (hokA : process_checkpoint cfg gidA hA smA nmA nsA ptA st Ca = .ok stA)
    (hokB : process_checkpoint cfg gidB hB smB nmB nsB ptB stA Cb = .ok stB) :
    stA.latestSeqNumber = max st.latestSeqNumber Ca.sequenceNumber ∧
      stA.latestTimestampMs = max st.latestTimestampMs Ca.timestampMs ∧
      max Ca.sequenceNumber Cb.sequenceNumber ≤ stB.latestSeqNumber := by
  have eA := process_checkpoint_ok_state cfg gidA hA smA nmA nsA ptA st Ca stA hdev hokA
  have eB := process_checkpoint_ok_state cfg gidB hB smB nmB nsB ptB stA Cb stB hdev hokB
  have lA := checkpointStep_latest cfg gidA hA nmA nsA ptA st Ca
  have lB := checkpointStep_latest cfg gidB hB nmB nsB ptB stA Cb
  rw [← eA] at lA
  rw [← eB] at lB
  refine ⟨lA.1, lA.2, ?_⟩
  rw [lB.1, lA.1]
  omega

/-- Witness for C4: two concrete checkpoints in delivery order. -/
theorem watermark_monotonic_witness :
    (⟨5, 0, 1, 1, 10, 10, 10, 0, 0, 0, 0, 0⟩ : IndexerState).latestSeqNumber
        = max stFix.latestSeqNumber cpSample.sequenceNumber ∧
      (⟨5, 0, 1, 1, 10, 10, 10, 0, 0, 0, 0, 0⟩ : IndexerState).latestTimestampMs
        = max stFix.latestTimestampMs cpSample.timestampMs ∧
      max cpSample.sequenceNumber cpSample.sequenceNumber
        ≤ (⟨5, 0, 2, 2, 10, 10, 20, 0, 0, 0, 0, 0⟩ : IndexerState).latestSeqNumber := by
  refine watermark_monotonic cfgFix gidSample gidSample (fun _ => .ok ()) (fun _ => .ok ())
    (.ok ()) (.ok ()) 2000 3 10 2000 3 10 stFix
    ⟨5, 0, 1, 1, 10, 10, 10, 0, 0, 0, 0, 0⟩ ⟨5, 0, 2, 2, 10, 10, 20, 0, 0, 0, 0, 0⟩
    cpSample cpSample rfl ?_ ?_ <;> rfl

/-- A state with nonzero telemetry counters, to make non-updates visible. -/
def stFix9 : IndexerState := ⟨0, 0, 7, 3, 50, 20, 100, 0, 999, 0, 0, 0⟩

/-- A checkpoint whose only event is not recognized by the registry. -/
def cpUnrecognized : CheckpointData :=
  ⟨6, 500, [⟨"tx1", some [⟨"other::module::Evt", "dave", []⟩]⟩]⟩

/-- C9 as stated is violated by the code: a checkpoint that passes the
dev-mode gate but contains no recognized events leaves
`total_processed_checkpoints` and the processing-time aggregates untouched
(`3` and `100` here), while `total_checkpoints` still increments to `8` —
the telemetry fold runs only on the non-empty dispatch branch. -/
theorem telemetry_unconditional_counterexample :
    (process_checkpoint cfgFix gidSample (fun _ => .ok ()) (.ok ()) 2000 3 55
          stFix9 cpUnrecognized).toOption.map
        (fun s => (s.totalProcessedCheckpoints, s.totalProcessingTime, s.totalCheckpoints))
      = some (3, 100, 8) := by
  decide

/-- C9 amended: the update-telemetry step folds the elapsed wall-time into
min/max/total and increments `total_processed_checkpoints` exactly when the
checkpoint contains at least one registry-recognized event; otherwise those
counters are unchanged (the lag aggregates and `total_checkpoints` update
either way). -/
theorem telemetry_iff_recognized (cfg : IndexerConfig) (gid : Event → Option String)
    (handler : Event × String → Except PError Unit) (sm : Except PError Unit)
    (nowMs nowSecs pt : Nat) (st : IndexerState) (C : CheckpointData)
    (hdev : cfg.devMode = false) (hmod : C.sequenceNumber % 1000 ≠ 0) :
    ((uniqueEvents gid C).isEmpty = false →
        (process_checkpoint cfg gid handler sm nowMs nowSecs pt st C).toOption.map
            (fun s => (s.totalProcessedCheckpoints, s.totalProcessingTime,
              s.maxProcessingTime, s.minProcessingTime))
          = some (st.totalProcessedCheckpoints + 1, st.totalProcessingTime + pt,
              max st.maxProcessingTime pt, min st.minProcessingTime pt)) ∧
      ((uniqueEvents gid C).isEmpty = true →
        (process_checkpoint cfg gid handler sm nowMs nowSecs pt st C).toOption.map
            (fun s => (s.totalProcessedCheckpoints, s.totalProcessingTime,
              s.maxProcessingTime, s.minProcessingTime))
          = some (st.totalProcessedCheckpoints, st.totalProcessingTime,
              st.maxProcessingTime, st.minProcessingTime)) ∧
      (process_checkpoint cfg gid handler sm nowMs nowSecs pt st C).toOption.map
          (fun s => (s.totalCheckpoints, s.totalLagging))
        = some (st.totalCheckpoints + 1,
            st.totalLagging + lagging_timestamp_ms nowMs C.timestampMs) := by
  rw [process_checkpoint_ok_of_not_snapshot cfg gid handler sm nowMs nowSecs pt st C hdev hmod]
  refine ⟨?_, ?_, ?_⟩
  · intro hne
    have h := checkpointStep_nonempty_counters cfg gid handler nowMs nowSecs pt st C hne
    simp [Except.toOption, h.1, h.2.1, h.2.2.1, h.2.2.2]
  · intro he
    have h := checkpointStep_empty_counters cfg gid handler nowMs nowSecs pt st C he
    simp [Except.toOption, h.1, h.2.1, h.2.2.1, h.2.2.2]
  · have h := checkpointStep_lag_counters cfg gid handler nowMs nowSecs pt st C
    simp [Except.toOption, h.1, h.2]

/-- Witness for the amended C9: both the no-events and the with-events cases
at concrete inputs. -/
theorem telemetry_iff_recognized_witness :
    (process_checkpoint cfgFix gidSample (fun _ => .ok ()) (.ok ()) 2000 3 55
          stFix9 cpUnrecognized).toOption.map
        (fun s => (s.totalProcessedCheckpoints, s.totalProcessingTime,
          s.maxProcessingTime, s.minProcessingTime))
      = some (stFix9.totalProcessedCheckpoints, stFix9.totalProcessingTime,
          stFix9.maxProcessingTime, stFix9.minProcessingTime) ∧
      (process_checkpoint cfgFix gidSample (fun _ => .ok ()) (.ok ()) 2000 3 55
            stFix9 cpSample).toOption.map
          (fun s => (s.totalProcessedCheckpoints, s.totalProcessingTime,
            s.maxProcessingTime, s.minProcessingTime))
        = some (stFix9.totalProcessedCheckpoints + 1, stFix9.totalProcessingTime + 55,
            max stFix9.maxProcessingTime 55, min stFix9.minProcessingTime 55) := by
  constructor
  · exact (telemetry_iff_recognized cfgFix gidSample (fun _ => .ok ()) (.ok ())
      2000 3 55 stFix9 cpUnrecognized rfl (by decide)).2.1 (by decide)
  · exact (telemetry_iff_recognized cfgFix gidSample (fun _ => .ok ()) (.ok ())
      2000 3 55 stFix9 cpSample rfl (by decide)).1 (by decide)

/-! ## Lag-alert backoff runs -/

/-- A run of consecutive triggered alerts: step `j` sees lag
`threshold + 1 + lagExcess` (strictly above threshold) and wall clock
`nextAlert + 1 + gap` (strictly past the schedule); the run records each
step's scheduled interval `next' - now`. -/
def alertRun (threshold : Nat) : List (Nat × Nat) → Nat × Nat → List Nat × (Nat × Nat)
  | [], st => ([], st)
  | (lagExcess, gap) :: steps, st =>
      let now := st.1 + 1 + gap
      let st' := alertStep threshold (threshold + 1 + lagExcess) now st
      let r := alertRun threshold steps st'
      ((st'.1 - now) :: r.1, r.2)

theorem range_map_shift (g : Nat → Nat) (n : Nat) :
    (List.range (n + 1)).map g = g 0 :: (List.range n).map (fun k => g (k + 1)) := by
  rw [List.range_succ_eq_map, List.map_cons, List.map_map]
  rfl

set_option maxRecDepth 4096 in
theorem alertRun_intervals (threshold : Nat) (steps : List (Nat × Nat)) (next f : Nat) :
    (alertRun threshold steps (next, f)).1
        = (List.range steps.length).map (fun k => 2 ^ min (f + k) 8 * 900) ∧
      (alertRun threshold steps (next, f)).2.2 = f + steps.length := by
  induction steps generalizing next f with
  | nil => simp [alertRun]
  | cons s steps ih =>
    obtain ⟨lagExcess, gap⟩ := s
    have hstep : alertStep threshold (threshold + 1 + lagExcess) (next + 1 + gap) (next, f)
        = (next + 1 + gap + 2 ^ min f 8 * 900, f + 1) := by
      unfold alertStep
      rw [if_pos (by omega), if_pos (by omega)]
    have ihx := ih (next + 1 + gap + 2 ^ min f 8 * 900) (f + 1)
    simp only [alertRun, hstep]
    constructor
    · rw [ihx.1]
      have hsub : next + 1 + gap + 2 ^ min f 8 * 900 - (next + 1 + gap)
          = 2 ^ min f 8 * 900 := by omega
      rw [hsub, List.length_cons, range_map_shift]
      congr 1
      apply List.map_congr_left
      intro k _
      have he : f + 1 + k = f + (k + 1) := by omega
      rw [he]
    · rw [ihx.2]
      simp only [List.length_cons]
      omega

/-- C5: Lag-alert backoff.  A triggered alert schedules
`now + 2^min(factor, 8) * 900` using the pre-increment factor and increments
the factor; within-threshold lag resets the factor to 0; consequently, over
any run of consecutive triggered alerts starting from factor 0, the
scheduled intervals are exactly `900 * 2^min(k, 8)` for `k = 0, 1, 2, …`. -/
theorem lag_alert_backoff :
    (∀ threshold lag now next factor, threshold < lag → next < now →
        alertStep threshold lag now (next, factor)
          = (now + 2 ^ min factor 8 * 900, factor + 1)) ∧
      (∀ threshold lag now next factor, lag ≤ threshold →
        alertStep threshold lag now (next, factor) = (next, 0)) ∧
      (∀ threshold lag now next factor, threshold < lag → now ≤ next →
        alertStep threshold lag now (next, factor) = (next, factor)) ∧
      (∀ threshold steps next,
        (alertRun threshold steps (next, 0)).1
            = (List.range steps.length).map (fun k => 2 ^ min k 8 * 900) ∧
          (alertRun threshold steps (next, 0)).2.2 = steps.length) := by
  refine ⟨?_, ?_, ?_, ?_⟩
  · intro threshold lag now next factor h1 h2
    unfold alertStep
    rw [if_pos h1, if_pos h2]
  · intro threshold lag now next factor h1
    unfold alertStep
    rw [if_neg (by omega)]
  · intro threshold lag now next factor h1 h2
    unfold alertStep
    rw [if_pos h1, if_neg (by omega)]
  · intro threshold steps next
    have h := alertRun_intervals threshold steps next 0
    simpa using h

/-- Witness for C5: one triggered alert, one reset, one suppressed alert,
and a four-step run with intervals 900, 1800, 3600, 7200. -/
theorem lag_alert_backoff_witness :
    alertStep 100 101 50 (40, 3) = (50 + 2 ^ min 3 8 * 900, 3 + 1) ∧
      alertStep 100 100 50 (40, 3) = (40, 0) ∧
      alertStep 100 101 40 (40, 3) = (40, 3) ∧
      (alertRun 100 [(0, 0), (0, 0), (0, 0), (0, 0)] (7, 0)).1
        = (List.range 4).map (fun k => 2 ^ min k 8 * 900) := by
  refine ⟨lag_alert_backoff.1 100 101 50 40 3 (by decide) (by decide),
    lag_alert_backoff.2.1 100 100 50 40 3 (by decide),
    lag_alert_backoff.2.2.1 100 101 40 40 3 (by decide) (by decide),
    (lag_alert_backoff.2.2.2 100 [(0, 0), (0, 0), (0, 0), (0, 0)] 7).1⟩

/-! ## Entity upserts (`service/db_service/pool.rs`, `lending.rs`,
`db/src/models`, `db/src/repositories`) -/

/-- `crate::types::PoolTick`: the upsert request. -/
structure PoolTickReq where
  address : String
  tickIndex : Int
  liquidityNet : Option String
  liquidityGross : Option String
deriving DecidableEq

/-- A `pool_ticks` row (`db::models::pool_tick::PoolTick`, with the
auto-increment id and timestamps elided; row identity is positional). -/
structure PoolTickRow where
  address : String
  tickIndex : Int
  liquidityNet : Option String
  liquidityGross : Option String
deriving DecidableEq

/-- `UpdatePoolTick`, a diesel `AsChangeset` with all-`Option` fields:
`None` means *do not change*. -/
structure UpdatePoolTick where
  address : Option String
  tickIndex : Option Int
  liquidityNet : Option String
  liquidityGross : Option String
deriving DecidableEq

/-- diesel changeset semantics for a nullable column: a `Some` changeset
field overwrites the column, a `None` field leaves it unchanged. -/
def setOrKeep (u old : Option String) : Option String :=
  match u with
  | some v => some v
  | none => old

theorem setOrKeep_self (o : Option String) : setOrKeep o o = o := by
  cases o <;> rfl

theorem setOrKeep_idem (u old : Option String) :
    setOrKeep u (setOrKeep u old) = setOrKeep u old := by
  cases u <;> rfl

/-- Applying an `AsChangeset` to a row: each `Some` field overwrites, each
`None` field is left alone (diesel skips `None` changeset fields). -/
def applyUpdatePoolTick (u : UpdatePoolTick) (r : PoolTickRow) : PoolTickRow :=
  { address := u.address.getD r.address
    tickIndex := u.tickIndex.getD r.tickIndex
    liquidityNet := setOrKeep u.liquidityNet r.liquidityNet
    liquidityGross := setOrKeep u.liquidityGross r.liquidityGross }

/-- The key predicate of `find_by_address_and_tick_index`. -/
def poolTickKeyMatch (addr : String) (ti : Int) (r : PoolTickRow) : Bool :=
  decide (r.address = addr ∧ r.tickIndex = ti)

/-- `PoolTickRepository::find_by_address_and_tick_index` (`LIMIT 1`). -/
def findPoolTick (addr : String) (ti : Int) (db : List PoolTickRow) : Option PoolTickRow :=
  db.find? (poolTickKeyMatch addr ti)

/-- `PoolTickRepository::update` on the row found by the key (the source
updates by that row's id; positionally this is the first matching row). -/
def updateFirstPoolTick (addr : String) (ti : Int) (f : PoolTickRow → PoolTickRow) :
    List PoolTickRow → List PoolTickRow
  | [] => []
  | r :: rest =>
      if poolTickKeyMatch addr ti r then f r :: rest
      else r :: updateFirstPoolTick addr ti f rest

/-- `PoolService::save_pool_tick_to_db`: look the key up; if present, update
with a changeset carrying `Some` key fields and the request's (possibly
`None`) liquidity fields; if absent, insert a new row. -/
def save_pool_tick_to_db (req : PoolTickReq) (db : List PoolTickRow) : List PoolTickRow :=
  match findPoolTick req.address req.tickIndex db with
  | some _ =>
      updateFirstPoolTick req.address req.tickIndex
        (applyUpdatePoolTick
          ⟨some req.address, some req.tickIndex, req.liquidityNet, req.liquidityGross⟩) db
  | none => db ++ [⟨req.address, req.tickIndex, req.liquidityNet, req.liquidityGross⟩]

theorem findPoolTick_append (a : String) (t : Int) (db : List PoolTickRow) (x : PoolTickRow)
    (h : findPoolTick a t db = none) :
    findPoolTick a t (db ++ [x])
      = if poolTickKeyMatch a t x then some x else none := by
  induction db with
  | nil =>
    simp only [List.nil_append]
    unfold findPoolTick List.find?
    split <;> simp_all
  | cons r rest ih =>
    unfold findPoolTick List.find? at h ⊢
    cases hm : poolTickKeyMatch a t r with
    | true => rw [hm] at h; cases h
    | false =>
      rw [hm] at h
      simp only [List.cons_append]
      rw [hm]
      exact ih h

theorem findPoolTick_updateFirst (a : String) (t : Int) (f : PoolTickRow → PoolTickRow)
    (db : List PoolTickRow) (r : PoolTickRow) (h : findPoolTick a t db = some r)
    (hf : poolTickKeyMatch a t (f r) = true) :
    findPoolTick a t (updateFirstPoolTick a t f db) = some (f r) := by
  induction db with
  | nil => cases h
  | cons q rest ih =>
    unfold findPoolTick List.find? at h
    unfold updateFirstPoolTick
    cases hm : poolTickKeyMatch a t q with
    | true =>
      rw [hm] at h
      injection h with h
      subst h
      simp only [hm, if_true]
      unfold findPoolTick List.find?
      rw [hf]
    | false =>
      rw [hm] at h
      simp only [hm, Bool.false_eq_true, if_false]
      unfold findPoolTick List.find?
      rw [hm]
      exact ih h

theorem updateFirstPoolTick_id (a : String) (t : Int) (f : PoolTickRow → PoolTickRow)
    (db : List PoolTickRow) (r : PoolTickRow) (h : findPoolTick a t db = some r)
    (hf : f r = r) : updateFirstPoolTick a t f db = db := by
  induction db with
  | nil => rfl
  | cons q rest ih =>
    unfold findPoolTick List.find? at h
    unfold updateFirstPoolTick
    cases hm : poolTickKeyMatch a t q with
    | true =>
      rw [hm] at h
      injection h with h
      subst h
      rw [if_pos rfl, hf]
    | false =>
      rw [hm] at h
      simp only [hm, Bool.false_eq_true, if_false]
      rw [ih h]

/-- Idempotence of the pool-tick upsert: a second upsert whose non-null
fields agree with the first leaves the database unchanged. -/
theorem save_pool_tick_idem (db : List PoolTickRow) (U1 U2 : PoolTickReq)
    (hk1 : U2.address = U1.address) (hk2 : U2.tickIndex = U1.tickIndex)
    (hn : U2.liquidityNet = none ∨ U2.liquidityNet = U1.liquidityNet)
    (hg : U2.liquidityGross = none ∨ U2.liquidityGross = U1.liquidityGross) :
    save_pool_tick_to_db U2 (save_pool_tick_to_db U1 db) = save_pool_tick_to_db U1 db := by
  cases hfind : findPoolTick U1.address U1.tickIndex db with
  | none =>
    have hdb1 : save_pool_tick_to_db U1 db
        = db ++ [⟨U1.address, U1.tickIndex, U1.liquidityNet, U1.liquidityGross⟩] := by
      unfold save_pool_tick_to_db
      rw [hfind]
    set r1 : PoolTickRow := ⟨U1.address, U1.tickIndex, U1.liquidityNet, U1.liquidityGross⟩
      with hr1
    have hmatch : poolTickKeyMatch U1.address U1.tickIndex r1 = true := by
      unfold poolTickKeyMatch
      simp [hr1]
    have hfind1 : findPoolTick U2.address U2.tickIndex (save_pool_tick_to_db U1 db)
        = some r1 := by
      rw [hk1, hk2, hdb1, findPoolTick_append _ _ _ _ hfind, if_pos hmatch]
    have hid : applyUpdatePoolTick
        ⟨some U2.address, some U2.tickIndex, U2.liquidityNet, U2.liquidityGross⟩ r1 = r1 := by
      unfold applyUpdatePoolTick
      rcases hn with hn | hn <;> rcases hg with hg | hg <;>
        simp [hr1, hn, hg, hk1, hk2, setOrKeep_self,
          show ∀ o, setOrKeep none o = o from fun _ => rfl]
    rw [hdb1] at hfind1 ⊢
    unfold save_pool_tick_to_db
    rw [hfind1]
    exact updateFirstPoolTick_id _ _ _ _ r1 hfind1 hid
  | some r =>
    have hdb1 : save_pool_tick_to_db U1 db
        = updateFirstPoolTick U1.address U1.tickIndex
            (applyUpdatePoolTick
              ⟨some U1.address, some U1.tickIndex, U1.liquidityNet, U1.liquidityGross⟩) db := by
      unfold save_pool_tick_to_db
      rw [hfind]
    set r1 : PoolTickRow := applyUpdatePoolTick
      ⟨some U1.address, some U1.tickIndex, U1.liquidityNet, U1.liquidityGross⟩ r with hr1
    have hmatch : poolTickKeyMatch U1.address U1.tickIndex r1 = true := by
      unfold poolTickKeyMatch
      simp [hr1, applyUpdatePoolTick]
    have hfind1 : findPoolTick U2.address U2.tickIndex (save_pool_tick_to_db U1 db)
        = some r1 := by
      rw [hk1, hk2, hdb1]
      exact findPoolTick_updateFirst _ _ _ _ _ hfind hmatch
    have hid : applyUpdatePoolTick
        ⟨some U2.address, some U2.tickIndex, U2.liquidityNet, U2.liquidityGross⟩ r1 = r1 := by
      rcases hn with hn | hn <;> rcases hg with hg | hg <;>
        simp [hr1, applyUpdatePoolTick, hn, hg, hk1, hk2, setOrKeep_idem,
          show ∀ o, setOrKeep none o = o from fun _ => rfl]
    rw [hdb1] at hfind1 ⊢
    unfold save_pool_tick_to_db
    rw [hfind1]
    exact updateFirstPoolTick_id _ _ _ _ r1 hfind1 hid

/-- `crate::types::UserBorrow`: the upsert request. -/
structure UserBorrowReq where
  platform : String
  borrower : String
  coinType : String
  amount : String
  obligationId : Option String
  debtBorrowIndex : Option String
deriving DecidableEq

/-- A `user_borrows` row (auto-increment id and timestamps elided). -/
structure UserBorrowRow where
  platform : String
  borrower : String
  coinType : String
  amount : String
  obligationId : Option String
  debtBorrowIndex : Option String
deriving DecidableEq

/-- `UpdateUserBorrow`, a diesel `AsChangeset`: `None` means do-not-change. -/
structure UpdateUserBorrow where
  platform : Option String
  borrower : Option String
  coinType : Option String
  amount : Option String
  obligationId : Option String
  debtBorrowIndex : Option String
deriving DecidableEq

def applyUpdateUserBorrow (u : UpdateUserBorrow) (r : UserBorrowRow) : UserBorrowRow :=
  { platform := u.platform.getD r.platform
    borrower := u.borrower.getD r.borrower
    coinType := u.coinType.getD r.coinType
    amount := u.amount.getD r.amount
    obligationId := setOrKeep u.obligationId r.obligationId
    debtBorrowIndex := setOrKeep u.debtBorrowIndex r.debtBorrowIndex }

/-- The key predicate of `find_by_platform_and_address_and_coin_type`. -/
def userBorrowKeyMatch (p b c : String) (r : UserBorrowRow) : Bool :=
  decide (r.platform = p ∧ r.borrower = b ∧ r.coinType = c)

def findUserBorrow (p b c : String) (db : List UserBorrowRow) : Option UserBorrowRow :=
  db.find? (userBorrowKeyMatch p b c)

def updateFirstUserBorrow (p b c : String) (f : UserBorrowRow → UserBorrowRow) :
    List UserBorrowRow → List UserBorrowRow
  | [] => []
  | r :: rest =>
      if userBorrowKeyMatch p b c r then f r :: rest
      else r :: updateFirstUserBorrow p b c f rest

/-- `LendingService::save_user_borrow_to_db`: find by (platform, borrower,
coin_type); update with a changeset whose key fields are `None`, `amount` is
`Some`, and `obligation_id` / `debt_borrow_index` are passed through; else
insert a new row. -/
def save_user_borrow_to_db (req : UserBorrowReq) (db : List UserBorrowRow) :
    List UserBorrowRow :=
  match findUserBorrow req.platform req.borrower req.coinType db with
  | some _ =>
      updateFirstUserBorrow req.platform req.borrower req.coinType
        (applyUpdateUserBorrow
          ⟨none, none, none, some req.amount, req.obligationId, req.debtBorrowIndex⟩) db
  | none =>
      db ++ [⟨req.platform, req.borrower, req.coinType, req.amount,
        req.obligationId, req.debtBorrowIndex⟩]

theorem findUserBorrow_append (p b c : String) (db : List UserBorrowRow) (x : UserBorrowRow)
    (h : findUserBorrow p b c db = none) :
    findUserBorrow p b c (db ++ [x])
      = if userBorrowKeyMatch p b c x then some x else none := by
  induction db with
  | nil =>
    simp only [List.nil_append]
    unfold findUserBorrow List.find?
    split <;> simp_all
  | cons r rest ih =>
    unfold findUserBorrow List.find? at h ⊢
    cases hm : userBorrowKeyMatch p b c r with
    | true => rw [hm] at h; cases h
    | false =>
      rw [hm] at h
      simp only [List.cons_append]
      rw [hm]
      exact ih h

theorem findUserBorrow_updateFirst (p b c : String) (f : UserBorrowRow → UserBorrowRow)
    (db : List UserBorrowRow) (r : UserBorrowRow) (h : findUserBorrow p b c db = some r)
    (hf : userBorrowKeyMatch p b c (f r) = true) :
    findUserBorrow p b c (updateFirstUserBorrow p b c f db) = some (f r) := by
  induction db with
  | nil => cases h
  | cons q rest ih =>
    unfold findUserBorrow List.find? at h
    unfold updateFirstUserBorrow
    cases hm : userBorrowKeyMatch p b c q with
    | true =>
      rw [hm] at h
      injection h with h
      subst h
      simp only [hm, if_true]
      unfold findUserBorrow List.find?
      rw [hf]
    | false =>
      rw [hm] at h
      simp only [hm, Bool.false_eq_true, if_false]
      unfold findUserBorrow List.find?
      rw [hm]
      exact ih h

theorem updateFirstUserBorrow_id (p b c : String) (f : UserBorrowRow → UserBorrowRow)
    (db : List UserBorrowRow) (r : UserBorrowRow) (h : findUserBorrow p b c db = some r)
    (hf : f r = r) : updateFirstUserBorrow p b c f db = db := by
  induction db with
  | nil => rfl
  | cons q rest ih =>
    unfold findUserBorrow List.find? at h
    unfold updateFirstUserBorrow
    cases hm : userBorrowKeyMatch p b c q with
    | true =>
      rw [hm] at h
      injection h with h
      subst h
      rw [if_pos rfl, hf]
    | false =>
      rw [hm] at h
      simp only [hm, Bool.false_eq_true, if_false]
      rw [ih h]

/-- Idempotence of the user-borrow upsert. -/
theorem save_user_borrow_idem (db : List UserBorrowRow) (U1 U2 : UserBorrowReq)
    (hk1 : U2.platform = U1.platform) (hk2 : U2.borrower = U1.borrower)
    (hk3 : U2.coinType = U1.coinType) (ha : U2.amount = U1.amount)
    (ho : U2.obligationId = none ∨ U2.obligationId = U1.obligationId)
    (hd : U2.debtBorrowIndex = none ∨ U2.debtBorrowIndex = U1.debtBorrowIndex) :
    save_user_borrow_to_db U2 (save_user_borrow_to_db U1 db)
      = save_user_borrow_to_db U1 db := by
  cases hfind : findUserBorrow U1.platform U1.borrower U1.coinType db with
  | none =>
    have hdb1 : save_user_borrow_to_db U1 db
        = db ++ [⟨U1.platform, U1.borrower, U1.coinType, U1.amount,
            U1.obligationId, U1.debtBorrowIndex⟩] := by
      unfold save_user_borrow_to_db
      rw [hfind]
    set r1 : UserBorrowRow := ⟨U1.platform, U1.borrower, U1.coinType, U1.amount,
      U1.obligationId, U1.debtBorrowIndex⟩ with hr1
    have hmatch : userBorrowKeyMatch U1.platform U1.borrower U1.coinType r1 = true := by
      unfold userBorrowKeyMatch
      simp [hr1]
    have hfind1 : findUserBorrow U2.platform U2.borrower U2.coinType
        (save_user_borrow_to_db U1 db) = some r1 := by
      rw [hk1, hk2, hk3, hdb1, findUserBorrow_append _ _ _ _ _ hfind, if_pos hmatch]
    have hid : applyUpdateUserBorrow
        ⟨none, none, none, some U2.amount, U2.obligationId, U2.debtBorrowIndex⟩ r1 = r1 := by
      unfold applyUpdateUserBorrow
      rcases ho with ho | ho <;> rcases hd with hd | hd <;>
        simp [hr1, ho, hd, ha, setOrKeep_self,
          show ∀ o, setOrKeep none o = o from fun _ => rfl]
    rw [hdb1] at hfind1 ⊢
    unfold save_user_borrow_to_db
    rw [hfind1]
    exact updateFirstUserBorrow_id _ _ _ _ _ r1 hfind1 hid
  | some r =>
    have hdb1 : save_user_borrow_to_db U1 db
        = updateFirstUserBorrow U1.platform U1.borrower U1.coinType
            (applyUpdateUserBorrow
              ⟨none, none, none, some U1.amount, U1.obligationId, U1.debtBorrowIndex⟩) db := by
      unfold save_user_borrow_to_db
      rw [hfind]
    have hrkey : userBorrowKeyMatch U1.platform U1.borrower U1.coinType r = true :=
      List.find?_some hfind
    set r1 : UserBorrowRow := applyUpdateUserBorrow
      ⟨none, none, none, some U1.amount, U1.obligationId, U1.debtBorrowIndex⟩ r with hr1
    have hmatch : userBorrowKeyMatch U1.platform U1.borrower U1.coinType r1 = true := by
      unfold userBorrowKeyMatch at hrkey ⊢
      simp only [hr1, applyUpdateUserBorrow]
      simpa using hrkey
    have hfind1 : findUserBorrow U2.platform U2.borrower U2.coinType
        (save_user_borrow_to_db U1 db) = some r1 := by
      rw [hk1, hk2, hk3, hdb1]
      exact findUserBorrow_updateFirst _ _ _ _ _ _ hfind hmatch
    have hid : applyUpdateUserBorrow
        ⟨none, none, none, some U2.amount, U2.obligationId, U2.debtBorrowIndex⟩ r1 = r1 := by
      rcases ho with ho | ho <;> rcases hd with hd | hd <;>
        simp [hr1, applyUpdateUserBorrow, ho, hd, ha, setOrKeep_idem,
          show ∀ o, setOrKeep none o = o from fun _ => rfl]
    rw [hdb1] at hfind1 ⊢
    unfold save_user_borrow_to_db
    rw [hfind1]
    exact updateFirstUserBorrow_id _ _ _ _ _ r1 hfind1 hid

/-- C6: Entity upserts are create-if-absent, else selectively overwrite
(null changeset fields mean do-not-change), and hence idempotent: for both
the PoolTick upsert (keyed by pool address and tick index) and the
UserBorrow upsert (keyed by platform, borrower, coin type), two successive
upserts whose non-null fields agree leave the same state as the first
alone. -/
theorem upsert_create_or_selective_overwrite_idempotent :
    (∀ (db : List PoolTickRow) (U1 U2 : PoolTickReq),
        U2.address = U1.address → U2.tickIndex = U1.tickIndex →
        (U2.liquidityNet = none ∨ U2.liquidityNet = U1.liquidityNet) →
        (U2.liquidityGross = none ∨ U2.liquidityGross = U1.liquidityGross) →
        save_pool_tick_to_db U2 (save_pool_tick_to_db U1 db)
          = save_pool_tick_to_db U1 db) ∧
      (∀ (db : List UserBorrowRow) (U1 U2 : UserBorrowReq),
        U2.platform = U1.platform → U2.borrower = U1.borrower →
        U2.coinType = U1.coinType → U2.amount = U1.amount →
        (U2.obligationId = none ∨ U2.obligationId = U1.obligationId) →
        (U2.debtBorrowIndex = none ∨ U2.debtBorrowIndex = U1.debtBorrowIndex) →
        save_user_borrow_to_db U2 (save_user_borrow_to_db U1 db)
          = save_user_borrow_to_db U1 db) :=
  ⟨fun db U1 U2 h1 h2 h3 h4 => save_pool_tick_idem db U1 U2 h1 h2 h3 h4,
    fun db U1 U2 h1 h2 h3 h4 h5 h6 => save_user_borrow_idem db U1 U2 h1 h2 h3 h4 h5 h6⟩

/-- Witness for C6: a fresh PoolTick upsert repeated with a null update, and
a UserBorrow upsert repeated verbatim over an existing row. -/
theorem upsert_idempotent_witness :
    save_pool_tick_to_db ⟨"0xPOOL", 12, none, some "7"⟩
          (save_pool_tick_to_db ⟨"0xPOOL", 12, some "5", some "7"⟩ [])
        = save_pool_tick_to_db ⟨"0xPOOL", 12, some "5", some "7"⟩ [] ∧
      save_user_borrow_to_db ⟨"navi", "0xS", "0xC::c::C", "42", some "ob1", none⟩
          (save_user_borrow_to_db ⟨"navi", "0xS", "0xC::c::C", "42", some "ob1", none⟩
            [⟨"navi", "0xS", "0xC::c::C", "41", none, some "idx"⟩])
        = save_user_borrow_to_db ⟨"navi", "0xS", "0xC::c::C", "42", some "ob1", none⟩
            [⟨"navi", "0xS", "0xC::c::C", "41", none, some "idx"⟩] := by
  constructor
  · exact upsert_create_or_selective_overwrite_idempotent.1 []
      ⟨"0xPOOL", 12, some "5", some "7"⟩ ⟨"0xPOOL", 12, none, some "7"⟩
      rfl rfl (by decide) (by decide)
  · exact upsert_create_or_selective_overwrite_idempotent.2
      [⟨"navi", "0xS", "0xC::c::C", "41", none, some "idx"⟩]
      ⟨"navi", "0xS", "0xC::c::C", "42", some "ob1", none⟩
      ⟨"navi", "0xS", "0xC::c::C", "42", some "ob1", none⟩
      rfl rfl rfl rfl (by decide) (by decide)

/-! ## Scallop lending handlers (`indexer/lending/scallop.rs`) -/

/-- The decoded Scallop `DepositEvent` fields the handler uses. -/
structure ScallopDepositEvent where
  provider : String
  obligation : String
  depositAsset : String
deriving DecidableEq

/-- The decoded Scallop `WithdrawEvent` fields the handler uses. -/
structure ScallopWithdrawEvent where
  taker : String
  obligation : String
  withdrawAsset : String
deriving DecidableEq

/-- The decoded Scallop `BorrowEventV3` fields the handler uses. -/
structure ScallopBorrowEventV3 where
  borrower : String
  obligation : String
  asset : String
deriving DecidableEq

/-- The decoded Scallop `RepayEvent` fields the handler uses. -/
structure ScallopRepayEvent where
  repayer : String
  obligation : String
  asset : String
deriving DecidableEq

/-- A `borrowers` row. -/
structure BorrowerRow where
  platform : String
  borrower : String
  obligationId : Option String
  status : Int
deriving DecidableEq

/-- `constant::PENDING_STATUS`. -/
def PENDING_STATUS : Int := 0

/-- `crate::types::UserDeposit`: the upsert request. -/
structure UserDepositReq where
  platform : String
  borrower : String
  coinType : String
  amount : String
  obligationId : Option String
deriving DecidableEq

/-- A `user_deposits` row. -/
structure UserDepositRow where
  platform : String
  borrower : String
  coinType : String
  amount : String
  obligationId : Option String
deriving DecidableEq

def findBorrower (platform addr : String) (db : List BorrowerRow) : Option BorrowerRow :=
  db.find? (fun r => decide (r.platform = platform ∧ r.borrower = addr))

/-- `UpdateBorrower` semantics: key fields `None`, `obligation_id` passed
through, `status` always `Some`. -/
def applyUpdateBorrower (obligationId : Option String) (status : Int) (r : BorrowerRow) :
    BorrowerRow :=
  { platform := r.platform
    borrower := r.borrower
    obligationId := setOrKeep obligationId r.obligationId
    status := status }

def updateFirstBorrower (p a : String) (f : BorrowerRow → BorrowerRow) :
    List BorrowerRow → List BorrowerRow
  | [] => []
  | r :: rest =>
      if decide (r.platform = p ∧ r.borrower = a) then f r :: rest
      else r :: updateFirstBorrower p a f rest

/-- `LendingService::save_borrower_to_db`. -/
def save_borrower_to_db (b : BorrowerRow) (db : List BorrowerRow) : List BorrowerRow :=
  match findBorrower b.platform b.borrower db with
  | some _ =>
      updateFirstBorrower b.platform b.borrower
        (applyUpdateBorrower b.obligationId b.status) db
  | none => db ++ [b]

def findUserDeposit (p b c : String) (db : List UserDepositRow) : Option UserDepositRow :=
  db.find? (fun r => decide (r.platform = p ∧ r.borrower = b ∧ r.coinType = c))

def updateFirstUserDeposit (p b c : String) (f : UserDepositRow → UserDepositRow) :
    List UserDepositRow → List UserDepositRow
  | [] => []
  | r :: rest =>
      if decide (r.platform = p ∧ r.borrower = b ∧ r.coinType = c) then f r :: rest
      else r :: updateFirstUserDeposit p b c f rest

/-- `LendingService::save_user_deposit_to_db`: like the user-borrow upsert
but without the borrow-index column. -/
def save_user_deposit_to_db (req : UserDepositReq) (db : List UserDepositRow) :
    List UserDepositRow :=
  match findUserDeposit req.platform req.borrower req.coinType db with
  | some _ =>
      updateFirstUserDeposit req.platform req.borrower req.coinType
        (fun r =>
          { platform := r.platform, borrower := r.borrower, coinType := r.coinType,
            amount := req.amount,
            obligationId := setOrKeep req.obligationId r.obligationId }) db
  | none =>
      db ++ [⟨req.platform, req.borrower, req.coinType, req.amount, req.obligationId⟩]

/-- The persistent lending state touched by the Scallop handlers. -/
structure LendingDb where
  borrowers : List BorrowerRow
  userDeposits : List UserDepositRow
  userBorrows : List UserBorrowRow
deriving DecidableEq

/-- `Scallop::create_new_borrower`: a pending borrower row carrying the
event's obligation id. -/
def create_new_borrower (platform address obligationId : String) (db : LendingDb) :
    LendingDb :=
  { db with borrowers :=
      save_borrower_to_db ⟨platform, address, some obligationId, PENDING_STATUS⟩ db.borrowers }

/-- `Scallop::is_owner_obligation_id`: fetch the sender's obligation id on
chain (`ownerLookup` is that RPC result) and fail unless it equals the
event's obligation id. -/
def is_owner_obligation_id (ownerLookup : Except PError String) (obligationId : String) :
    Except PError Unit :=
  match ownerLookup with
  | .error e => .error e
  | .ok owner => if owner = obligationId then .ok () else .error .ownershipMismatch

/-- `Scallop::process_deposit`: ownership check first; then ensure a
borrower row exists (create pending if absent); then fetch the current
balance (`fetchUserDeposit` is that RPC result) and upsert the UserDeposit
row.  The state reached at the point of an error is returned alongside it. -/
def scallop_process_deposit (platform : String) (ownerLookup : Except PError String)
    (fetchUserDeposit : Except PError UserDepositReq)
    (e : ScallopDepositEvent) (sender : String) (db : LendingDb) :
    Except PError Unit × LendingDb :=
  match is_owner_obligation_id ownerLookup e.obligation with
  | .error err => (.error err, db)
  | .ok _ =>
    let db1 :=
      match findBorrower platform sender db.borrowers with
      | some _ => db
      | none => create_new_borrower platform sender e.obligation db
    match fetchUserDeposit with
    | .error err => (.error err, db1)
    | .ok ud =>
        (.ok (), { db1 with userDeposits := save_user_deposit_to_db ud db1.userDeposits })

/-- `Scallop::process_withdraw`: same shape as deposit. -/
def scallop_process_withdraw (platform : String) (ownerLookup : Except PError String)
    (fetchUserDeposit : Except PError UserDepositReq)
    (e : ScallopWithdrawEvent) (sender : String) (db : LendingDb) :
    Except PError Unit × LendingDb :=
  match is_owner_obligation_id ownerLookup e.obligation with
  | .error err => (.error err, db)
  | .ok _ =>
    let db1 :=
      match findBorrower platform sender db.borrowers with
      | some _ => db
      | none => create_new_borrower platform sender e.obligation db
    match fetchUserDeposit with
    | .error err => (.error err, db1)
    | .ok ud =>
        (.ok (), { db1 with userDeposits := save_user_deposit_to_db ud db1.userDeposits })

/-- `Scallop::process_borrow`: ownership check, borrower row, then a
UserBorrow upsert. -/
def scallop_process_borrow (platform : String) (ownerLookup : Except PError String)
    (fetchUserBorrow : Except PError UserBorrowReq)
    (e : ScallopBorrowEventV3) (sender : String) (db : LendingDb) :
    Except PError Unit × LendingDb :=
  match is_owner_obligation_id ownerLookup e.obligation with
  | .error err => (.error err, db)
  | .ok _ =>
    let db1 :=
      match findBorrower platform sender db.borrowers with
      | some _ => db
      | none => create_new_borrower platform sender e.obligation db
    match fetchUserBorrow with
    | .error err => (.error err, db1)
    | .ok ub =>
        (.ok (), { db1 with userBorrows := save_user_borrow_to_db ub db1.userBorrows })

/-- `Scallop::process_repay`: same shape as borrow. -/
def scallop_process_repay (platform : String) (ownerLookup : Except PError String)
    (fetchUserBorrow : Except PError UserBorrowReq)
    (e : ScallopRepayEvent) (sender : String) (db : LendingDb) :
    Except PError Unit × LendingDb :=
  match is_owner_obligation_id ownerLookup e.obligation with
  | .error err => (.error err, db)
  | .ok _ =>
    let db1 :=
      match findBorrower platform sender db.borrowers with
      | some _ => db
      | none => create_new_borrower platform sender e.obligation db
    match fetchUserBorrow with
    | .error err => (.error err, db1)
    | .ok ub =>
        (.ok (), { db1 with userBorrows := save_user_borrow_to_db ub db1.userBorrows })

/-- C7: Ownership-mismatch atomicity.  For each of the four Scallop lending
handlers, a failed obligation-ownership check makes the handler return an
error before any write — the lending state (borrower rows and
UserDeposit/UserBorrow rows) is exactly as before — while a checkpoint whose
handlers all fail that way still completes and advances the watermark. -/
theorem scallop_ownership_mismatch_atomic :
    (∀ platform owner fd e sender db, owner ≠ e.obligation →
        scallop_process_deposit platform (.ok owner) fd e sender db
          = (.error .ownershipMismatch, db)) ∧
      (∀ platform owner fd e sender db, owner ≠ e.obligation →
        scallop_process_withdraw platform (.ok owner) fd e sender db
          = (.error .ownershipMismatch, db)) ∧
      (∀ platform owner fb e sender db, owner ≠ e.obligation →
        scallop_process_borrow platform (.ok owner) fb e sender db
          = (.error .ownershipMismatch, db)) ∧
      (∀ platform owner fb e sender db, owner ≠ e.obligation →
        scallop_process_repay platform (.ok owner) fb e sender db
          = (.error .ownershipMismatch, db)) ∧
      (∀ cfg gid handler sm nowMs nowSecs pt st C,
        cfg.devMode = false → C.sequenceNumber % 1000 ≠ 0 →
        (∀ p, handler p = .error PError.ownershipMismatch) →
        (process_checkpoint cfg gid handler sm nowMs nowSecs pt st C).toOption.map
            (·.latestSeqNumber)
          = some (max st.latestSeqNumber C.sequenceNumber)) := by
  refine ⟨?_, ?_, ?_, ?_, ?_⟩
  · intro platform owner fd e sender db h
    unfold scallop_process_deposit is_owner_obligation_id
    dsimp only
    rw [if_neg h]
  · intro platform owner fd e sender db h
    unfold scallop_process_withdraw is_owner_obligation_id
    dsimp only
    rw [if_neg h]
  · intro platform owner fb e sender db h
    unfold scallop_process_borrow is_owner_obligation_id
    dsimp only
    rw [if_neg h]
  · intro platform owner fb e sender db h
    unfold scallop_process_repay is_owner_obligation_id
    dsimp only
    rw [if_neg h]
  · intro cfg gid handler sm nowMs nowSecs pt st C hdev hmod _
    rw [process_checkpoint_ok_of_not_snapshot cfg gid handler sm nowMs nowSecs pt st C
      hdev hmod]
    have hl := (checkpointStep_latest cfg gid handler nowMs nowSecs pt st C).1
    simp [Except.toOption, hl]

/-- Witness for C7: a concrete mismatching deposit leaves a concrete lending
state untouched, and a checkpoint whose handler always reports the mismatch
still advances the watermark. -/
theorem scallop_ownership_mismatch_atomic_witness :
    scallop_process_deposit "scallop" (.ok "0xOWN") (.ok ⟨"scallop", "0xS", "c", "1", none⟩)
          ⟨"0xS", "0xOBL", "c"⟩ "0xS" ⟨[], [], []⟩
        = (.error .ownershipMismatch, ⟨[], [], []⟩) ∧
      (process_checkpoint cfgFix gidSample (fun _ => .error PError.ownershipMismatch)
            (.ok ()) 2000 3 10 stFix cpSample).toOption.map (·.latestSeqNumber)
        = some (max stFix.latestSeqNumber cpSample.sequenceNumber) := by
  constructor
  · exact scallop_ownership_mismatch_atomic.1 "scallop" "0xOWN"
      (.ok ⟨"scallop", "0xS", "c", "1", none⟩) ⟨"0xS", "0xOBL", "c"⟩ "0xS" ⟨[], [], []⟩
      (by decide)
  · exact scallop_ownership_mismatch_atomic.2.2.2.2 cfgFix gidSample
      (fun _ => .error PError.ownershipMismatch) (.ok ()) 2000 3 10 stFix cpSample
      rfl (by decide) (fun _ => rfl)

end SuiIndexer
